import Mathlib

/-!
Shallow embedding of the commander.js argument-parsing core (src/index.js):
the `Option` flag-specification constructor, the option value binder installed
by `Command._optionEx`, the tokenizer `Command.parseOptions`, the command
resolution protocol `Command._parseCommand`, the mandatory-option sweep
`Command._checkForMissingMandatoryOptions`, and subcommand lookup
`Command._findCommand`.

JavaScript runtime values that flow through the option store are modelled by
`JsVal` (undefined, null, booleans, strings).  Strings are manipulated through
their character lists, mirroring the JavaScript index/slice operations used by
the source.  The tokenizer is instrumented with observation lists (emitted
option-occurrence events, consumed tokens, consumed option values, injected
synthetic tokens) that record the actions the source performs by emitting
events and by shifting/unshifting its working array.
-/

/-- A JavaScript value as stored in the option-value store. -/
inductive JsVal where
  | undef
  | nullv
  | bool (b : Bool)
  | str (s : String)
deriving DecidableEq, Repr

/-- Whether a `JsVal` is a boolean (JS `typeof v === 'boolean'`). -/
def JsVal.isBool : JsVal → Bool
  | .bool _ => true
  | _ => false

/-- JavaScript truthiness of a modelled value. -/
def jsTruthy : JsVal → Bool
  | .undef => false
  | .nullv => false
  | .bool b => b
  | .str s => s != ""

/-- JS loose equality with null (`v == null`): true for null and undefined. -/
def looseNull (v : JsVal) : Bool := v == JsVal.undef || v == JsVal.nullv

/-- JS `a || b` restricted to the values that occur in the binder. -/
def jsOr (a b : JsVal) : JsVal := if jsTruthy a then a else b

/-- The per-command bound value store (`_optionValues` / dynamic properties). -/
abbrev Store := String → JsVal

/-- Write one key of the store (`Command._setOptionValue`). -/
def setOptVal (s : Store) (key : String) (v : JsVal) : Store :=
  fun k => if k = key then v else s k

/-- The store before any option registration: every key reads as undefined. -/
def initStore : Store := fun _ => JsVal.undef

/-! ## JavaScript string operations, over character lists -/

/-- Character at index `i` (JS `s[i]`, `undefined` out of range). -/
def charAt (s : String) (i : Nat) : Option Char := s.data[i]?

/-- JS `s.slice(n)`. -/
def strFrom (s : String) (n : Nat) : String := String.mk (s.data.drop n)

/-- JS `s.slice(0, n)`. -/
def strTake (s : String) (n : Nat) : String := String.mk (s.data.take n)

/-- Does the word start with `[` or `<` (the regex `/^[[<]/`)? -/
def bracketStart : List Char → Bool
  | [] => false
  | ch :: _ => ch == '[' || ch == '<'

/-- Does `l` start with the pattern `pat`? -/
def seqStarts : List Char → List Char → Bool
  | [], _ => true
  | _ :: _, [] => false
  | p :: ps, x :: xs => p == x && seqStarts ps xs

/-- JS `l.indexOf(pat) !== -1` for character sequences. -/
def containsSeq (pat : List Char) : List Char → Bool
  | [] => pat.isEmpty
  | x :: xs => seqStarts pat (x :: xs) || containsSeq pat xs

/-- JS `s.replace(/^pre/, '')`: drop the pattern when it leads. -/
def dropLead (pre l : List Char) : List Char :=
  if seqStarts pre l then l.drop pre.length else l

/-- JS `s.replace(/^pre/, rep)`: swap a leading pattern for `rep`. -/
def replaceLead (pre rep l : List Char) : List Char :=
  if seqStarts pre l then rep ++ l.drop pre.length else l

/-- Is the character one of the flag separators (the regex class `[ ,|]`)? -/
def sepChar (ch : Char) : Bool := ch == ' ' || ch == ',' || ch == '|'

/-- JS `flags.split(/[ ,|]+/)`: split on maximal runs of separators. -/
def splitSeps : List Char → List (List Char)
  | [] => [[]]
  | ch :: rest =>
    if sepChar ch then
      match rest with
      | [] => [[], []]
      | ch2 :: _ => if sepChar ch2 then splitSeps rest else [] :: splitSeps rest
    else
      match splitSeps rest with
      | chunk :: more => (ch :: chunk) :: more
      | [] => [[ch]]

/-- JS `s.split(c)` for a single character, keeping empty pieces. -/
def splitChar (c : Char) : List Char → List (List Char)
  | [] => [[]]
  | ch :: rest =>
    if ch = c then [] :: splitChar c rest
    else
      match splitChar c rest with
      | chunk :: more => (ch :: chunk) :: more
      | [] => [[ch]]

/-- JS `word[0].toUpperCase() + word.slice(1)`.  The source would throw on an
empty word; option names reaching it are non-empty, so the empty case is kept
total as the empty word. -/
def capitalizeJs : List Char → List Char
  | [] => []
  | ch :: rest => ch.toUpper :: rest

/-- The source's `camelcase`: split on `-` and capitalize every later word. -/
def camelcase (flag : List Char) : List Char :=
  match splitChar '-' flag with
  | [] => []
  | h :: t => t.foldl (fun acc w => acc ++ capitalizeJs w) h

/-! ## Option descriptors (`class Option`) -/

/-- A parsed option descriptor, mirroring the fields of `class Option`.
`defaultValue` is the property assigned during default pre-assignment in
`_optionEx`; it is `undef` while unassigned. -/
structure Opt where
  flags : String
  description : String
  required : Bool
  optional : Bool
  mandatory : Bool
  negate : Bool
  short : Option String
  long : String
  defaultValue : JsVal := JsVal.undef
deriving DecidableEq, Repr

/-- The `Option` constructor: parse a flags specification string. -/
def mkOption (flags description : String) : Opt :=
  let required := flags.data.contains '<'
  let optional := flags.data.contains '['
  let negate := containsSeq "-no-".data flags.data
  match splitSeps flags.data with
  | [] =>
    { flags, description, required, optional, mandatory := false, negate,
      short := none, long := "" }
  | [p] =>
    { flags, description, required, optional, mandatory := false, negate,
      short := none, long := String.mk p }
  | p1 :: p2 :: _ =>
    if bracketStart p2 then
      { flags, description, required, optional, mandatory := false, negate,
        short := none, long := String.mk p1 }
    else
      { flags, description, required, optional, mandatory := false, negate,
        short := some (String.mk p1), long := String.mk p2 }

/-- `Option.prototype.name`: the long flag without its leading dashes. -/
def Opt.name (o : Opt) : String := String.mk (dropLead "--".data o.long.data)

/-- `Option.prototype.attributeName`: camel-cased name, negation marker
stripped; the canonical store key. -/
def Opt.attributeName (o : Opt) : String :=
  String.mk (camelcase (dropLead "no-".data o.name.data))

/-- `Option.prototype.is`: does `arg` equal the short or the long flag? -/
def Opt.is (o : Opt) (arg : String) : Bool :=
  o.short == some arg || o.long == arg

/-! ## Commands, listeners, and the value binder -/

/-- The binder installed by `_optionEx` for one option: the values the
`option:<name>` event listener closes over. -/
structure Listener where
  oname : String
  attrName : String
  negate : Bool
  fn : Option (JsVal → JsVal → JsVal)
  capturedDefault : JsVal

/-- A subcommand as seen by `_findCommand`: its `_name` and `_alias`. -/
structure SubCmd where
  name : String
  aliasName : Option String
deriving DecidableEq, Repr

/-- A positional argument descriptor (`_parseExpectedArgs` output). -/
structure ArgDef where
  name : String
  required : Bool
  variadic : Bool
deriving DecidableEq, Repr

/-- The static configuration of a `Command` node.  The bound value store is
threaded separately because it is the only state that mutates during a
parse. -/
structure Cmd where
  options : List Opt := []
  listeners : List Listener := []
  commands : List SubCmd := []
  hasImplicitHelpCommandFlag : Option Bool := none
  helpCommandName : String := "help"
  defaultCommandName : Option String := none
  hasActionHandler : Bool := false
  argDefs : List ArgDef := []
  allowUnknownOpt : Bool := false
  helpLongFlag : String := "--help"
  helpShortFlag : String := "-h"
  hasCommandStarListener : Bool := false

/-- A command with nothing registered. -/
def emptyCmd : Cmd := {}

/-- `Command._findOption`: the first registered option matching `arg`. -/
def _findOption (c : Cmd) (arg : String) : Option Opt :=
  c.options.find? (fun o => Opt.is o arg)

/-- The `option:<name>` listener body from `_optionEx`: coercion, then the
unassigned-or-boolean rule, then the reassignment rule. -/
def applyListener (L : Listener) (store : Store) (rawVal : JsVal) : Store :=
  let val :=
    match L.fn with
    | some f =>
      if rawVal ≠ JsVal.nullv then
        f rawVal (if store L.attrName = JsVal.undef then L.capturedDefault
                  else store L.attrName)
      else rawVal
    | none => rawVal
  let cur := store L.attrName
  if cur.isBool ∨ cur = JsVal.undef then
    if looseNull val then
      setOptVal store L.attrName
        (if L.negate then JsVal.bool false else jsOr L.capturedDefault (JsVal.bool true))
    else
      setOptVal store L.attrName val
  else if val ≠ JsVal.nullv then
    setOptVal store L.attrName (if L.negate then JsVal.bool false else val)
  else
    store

/-- Fire the `option:<oname>` event (`this.emit`): every listener registered
for that event runs in registration order against the store. -/
def emitOption (c : Cmd) (oname : String) (val : JsVal) (store : Store) : Store :=
  c.listeners.foldl
    (fun s L => if L.oname = oname then applyListener L s val else s) store

/-! ## The tokenizer (`Command.parseOptions`) -/

/-- The tokenizer's `maybeOption` helper: length above one and leading `-`. -/
def maybeOption (arg : String) : Bool :=
  decide (1 < arg.data.length) && (charAt arg 0 == some '-')

/-- Shape test of the combined-short-cluster branch:
`arg.length > 2 && arg[0] === '-' && arg[1] !== '-'`. -/
def comboShape (arg : String) : Bool :=
  decide (2 < arg.data.length) && (charAt arg 0 == some '-')
    && !(charAt arg 1 == some '-')

/-- The probe flag of the cluster branch, JS `-${arg[1]}`. -/
def comboShort (arg : String) : String :=
  String.mk ('-' :: (arg.data.drop 1).take 1)

/-- The synthetic token re-injected for a boolean cluster head,
JS `-${arg.slice(2)}`. -/
def comboRemainder (arg : String) : String :=
  String.mk ('-' :: arg.data.drop 2)

/-- Position of the `=` for the `--name=value` branch: the test
`/^--[^=]+=/.test(arg)` combined with `arg.indexOf('=')`. -/
def longEqIndex (arg : String) : Option Nat :=
  match arg.data with
  | '-' :: '-' :: restCh =>
    match restCh.findIdx? (fun ch => ch == '=') with
    | some i => if 0 < i then some (i + 2) else none
    | none => none
  | _ => none

/-- Tokenizer errors and the other aborts of a parse pass; each corresponds to
one `this._exit` call site, carrying the data used in its message. -/
inductive Abort where
  | optionMissingArgument (flags : String)
  | helpDisplayed
  | helpExit (exitCode : Nat)
  | missingMandatoryOptionValue (flags : String)
  | unknownOption (flag : String)
  | missingArgument (name : String)
  | variadicArgNotLast (name : String)
  | unknownCommand (arg : String)
deriving DecidableEq, Repr

/-- Tokenizer scan state: the `operands` and `unknown` output arrays, the
`dest` pointer, the store mutated by the emitted events, and the observation
lists (events, consumed tokens, consumed option values, injected synthetic
tokens). -/
structure ScanSt where
  operands : List String := []
  unknown : List String := []
  destUnknown : Bool := false
  store : Store
  events : List (String × JsVal) := []
  consumed : List String := []
  consumedValues : List String := []
  injected : List String := []

/-- JS `dest.push(tok)`. -/
def pushDest (st : ScanSt) (tok : String) : ScanSt :=
  if st.destUnknown then { st with unknown := st.unknown ++ [tok] }
  else { st with operands := st.operands ++ [tok] }

/-- JS `dest.push(...toks)`. -/
def pushAllDest (st : ScanSt) (toks : List String) : ScanSt :=
  if st.destUnknown then { st with unknown := st.unknown ++ toks }
  else { st with operands := st.operands ++ toks }

/-- Record a token removed from the working array and not returned. -/
def consumeTok (tok : String) (st : ScanSt) : ScanSt :=
  { st with consumed := st.consumed ++ [tok] }

/-- Record a token consumed as an option value. -/
def consumeVal (tok : String) (st : ScanSt) : ScanSt :=
  { st with consumed := st.consumed ++ [tok],
            consumedValues := st.consumedValues ++ [tok] }

/-- Record a synthetic token unshifted onto the working array. -/
def injectTok (tok : String) (st : ScanSt) : ScanSt :=
  { st with injected := st.injected ++ [tok] }

/-- JS `dest = unknown`. -/
def switchUnknown (st : ScanSt) : ScanSt := { st with destUnknown := true }

/-- Fire an option occurrence: record the event and run the listeners. -/
def emitStep (c : Cmd) (oname : String) (val : JsVal) (st : ScanSt) : ScanSt :=
  { st with events := st.events ++ [(oname, val)],
            store := emitOption c oname val st.store }

/-- Result of a tokenizer pass: final state plus the abort raised, if any. -/
structure ScanOut where
  st : ScanSt
  err : Option Abort

/-- Weight of the working array, the loop measure: unshifting `-rest` in place
of a consumed cluster token strictly shrinks it. -/
def tokMeasure : List String → Nat
  | [] => 0
  | a :: rest => a.data.length + 1 + tokMeasure rest

/-- The exact-flag lookup of the scan: only option-shaped tokens are probed
against the registered flags (`if (maybeOption(arg)) { this._findOption(arg) }`). -/
def findExact (c : Cmd) (arg : String) : Option Opt :=
  if maybeOption arg then _findOption c arg else none

/-- The cluster lookup of the scan: a single-dash token longer than two
characters is probed by its second character, the source's lookup of the
two-character short flag built from the dash and the token's second
character. -/
def findCombo (c : Cmd) (arg : String) : Option Opt :=
  if comboShape arg then _findOption c (comboShort arg) else none

/-- The `--name=value` lookup of the scan: the option registered under the
part before the first `=`, provided it accepts a value. -/
def findLongEq (c : Cmd) (arg : String) : Option (Opt × Nat) :=
  match longEqIndex arg with
  | some i =>
    match _findOption c (strTake arg i) with
    | some o => if o.required ∨ o.optional then some (o, i) else none
    | none => none
  | none => none

/-- The `while (args.length)` loop of `Command.parseOptions`, one case per
branch of the source in source order: literal `--`; exact flag match
dispatched by arity; combined short cluster; `--name=value`; the switch of
`dest` to `unknown`; the final push. -/
def scanLoop (c : Cmd) (args : List String) (st : ScanSt) : ScanOut :=
  match args with
  | [] => { st := st, err := none }
  | arg :: rest =>
    if arg = "--" then
      let st1 := if st.destUnknown then pushDest st arg else consumeTok arg st
      { st := pushAllDest st1 rest, err := none }
    else
      match findExact c arg with
      | some option =>
        if option.required then
          match rest with
          | [] =>
            { st := consumeTok arg st,
              err := some (Abort.optionMissingArgument option.flags) }
          | v :: rest2 =>
            scanLoop c rest2
              (emitStep c option.name (JsVal.str v) (consumeVal v (consumeTok arg st)))
        else if option.optional then
          match rest with
          | v :: rest2 =>
            if maybeOption v then
              scanLoop c (v :: rest2)
                (emitStep c option.name JsVal.nullv (consumeTok arg st))
            else
              scanLoop c rest2
                (emitStep c option.name (JsVal.str v) (consumeVal v (consumeTok arg st)))
          | [] =>
            scanLoop c []
              (emitStep c option.name JsVal.nullv (consumeTok arg st))
        else
          scanLoop c rest (emitStep c option.name JsVal.undef (consumeTok arg st))
      | none =>
        match hco : findCombo c arg with
        | some option =>
          if option.required ∨ option.optional then
            scanLoop c rest
              (emitStep c option.name (JsVal.str (strFrom arg 2)) (consumeTok arg st))
          else
            scanLoop c (comboRemainder arg :: rest)
              (injectTok (comboRemainder arg)
                (emitStep c option.name JsVal.undef (consumeTok arg st)))
        | none =>
          match findLongEq c arg with
          | some (option, i) =>
            scanLoop c rest
              (emitStep c option.name (JsVal.str (strFrom arg (i + 1))) (consumeTok arg st))
          | none =>
            let st1 := if maybeOption arg then switchUnknown st else st
            scanLoop c rest (pushDest st1 arg)
termination_by tokMeasure args
decreasing_by
  all_goals simp_all only [tokMeasure]
  all_goals try omega
  all_goals
    have hcs : comboShape a = true := by
      by_contra hne
      unfold findCombo at hco
      rw [if_neg hne] at hco
      exact Option.noConfusion hco
    simp only [comboShape, decide_eq_true_eq, Bool.and_eq_true] at hcs
    simp only [comboRemainder, List.length_cons, List.length_drop]
    omega

/-- `Command.parseOptions`: run the scan on a copy of `argv` with fresh
`operands` and `unknown` arrays. -/
def parseOptions (c : Cmd) (store : Store) (argv : List String) : ScanOut :=
  scanLoop c argv { store := store }

/-! ## Option registration (`Command._optionEx` and wrappers) -/

/-- Result of registering one option: the extended command configuration, the
possibly pre-assigned store, and the `Option` object that was pushed. -/
structure RegOut where
  cmd : Cmd
  store : Store
  opt : Opt

/-- `Command._optionEx`: build the `Option`, run default pre-assignment
(including the negation rule that consults an already-registered positive
flag), push the option, and install the `option:<name>` listener.  The
call-convention juggling of `fn`/`defaultValue` arguments is modelled by
passing the coercion and the default separately. -/
def _optionEx (c : Cmd) (store : Store) (mandatory : Bool)
    (flags description : String) (fn : Option (JsVal → JsVal → JsVal))
    (defaultValue : JsVal) : RegOut :=
  let option := mkOption flags description
  let oname := option.name
  let name := option.attributeName
  let option := { option with mandatory := mandatory }
  -- when --no-foo we make sure default is true, unless a --foo option is
  -- already defined
  let defaultValue' :=
    if option.negate then
      (if (_findOption c (String.mk (replaceLead "--no-".data "--".data option.long.data))).isSome
       then store name else JsVal.bool true)
    else defaultValue
  -- preassign default value for --no-*, [optional], <required>, or plain
  -- flag if boolean value; only if we have a default
  let preassign :=
    (option.negate ∨ option.optional ∨ option.required ∨ defaultValue.isBool)
      ∧ defaultValue' ≠ JsVal.undef
  let option := if preassign then { option with defaultValue := defaultValue' } else option
  let store := if preassign then setOptVal store name defaultValue' else store
  { cmd := { c with
      options := c.options ++ [option],
      listeners := c.listeners ++
        [{ oname := oname, attrName := name, negate := option.negate,
           fn := fn, capturedDefault := defaultValue' }] },
    store := store,
    opt := option }

/-- `Command.option`. -/
def Cmd.option (c : Cmd) (store : Store) (flags description : String)
    (fn : Option (JsVal → JsVal → JsVal)) (defaultValue : JsVal) : RegOut :=
  _optionEx c store false flags description fn defaultValue

/-- `Command.requiredOption`. -/
def Cmd.requiredOption (c : Cmd) (store : Store) (flags description : String)
    (fn : Option (JsVal → JsVal → JsVal)) (defaultValue : JsVal) : RegOut :=
  _optionEx c store true flags description fn defaultValue

/-! ## Command resolution (`Command._parseCommand` and helpers) -/

/-- `Command._findCommand`: the first registered subcommand whose name or
alias equals the operand; a falsy name finds nothing. -/
def _findCommand (cmds : List SubCmd) (name : Option String) : Option SubCmd :=
  match name with
  | none => none
  | some n =>
    if n = "" then none
    else cmds.find? (fun cmd => cmd.name == n || cmd.aliasName == some n)

/-- `Command._lazyHasImplicitHelpCommand`: the cached flag if decided,
otherwise children present, no action handler, and no child named help. -/
def lazyHasImplicitHelpCommand (c : Cmd) : Bool :=
  match c.hasImplicitHelpCommandFlag with
  | some b => b
  | none =>
    !c.commands.isEmpty && !c.hasActionHandler
      && (_findCommand c.commands (some "help")).isNone

/-- One node of the ancestor walk of the mandatory sweep: the node's
registered options and its bound value store. -/
structure Frame where
  options : List Opt
  store : Store

/-- `Command._checkForMissingMandatoryOptions`: walking from the node through
its ancestors, the first option that is mandatory while its stored value is
undefined — the one whose `missingMandatoryOptionValue` abort fires. -/
def firstMissingMandatory : List Frame → Option Opt
  | [] => none
  | f :: rest =>
    match f.options.find? (fun o => o.mandatory && (f.store o.attributeName == JsVal.undef)) with
    | some o => some o
    | none => firstMissingMandatory rest

/-- `outputHelpIfRequested`: is a help flag among the searched tokens? -/
def outputHelpIfRequested (c : Cmd) (args : List String) : Bool :=
  (args.find? (fun arg => arg == c.helpLongFlag || arg == c.helpShortFlag)).isSome

/-- A slot of the argument array handed to the action handler: a token, the
array spliced in by a variadic argument, or undefined for a missing optional
operand. -/
inductive AVal where
  | strv (s : String)
  | undefv
  | arrv (l : List String)
deriving DecidableEq, Repr

/-- The positional-binding `forEach` before the action call: a required
descriptor with no operand aborts, a variadic descriptor that is not last
aborts, a trailing variadic splices up the remaining operands; slots past the
descriptors stay plain tokens. -/
def bindArgs (numDefs : Nat) (i : Nat) (defs : List ArgDef) (args : List String) :
    Except Abort (List AVal) :=
  match defs with
  | [] => Except.ok ((args.drop i).map AVal.strv)
  | d :: rest =>
    if d.required ∧ args.length ≤ i then
      Except.error (Abort.missingArgument d.name)
    else if d.variadic then
      if i ≠ numDefs - 1 then Except.error (Abort.variadicArgNotLast d.name)
      else Except.ok [AVal.arrv (args.drop i)]
    else
      match bindArgs numDefs (i + 1) rest args with
      | Except.error e => Except.error e
      | Except.ok tailSlots =>
        Except.ok ((match args[i]? with
                    | some s => AVal.strv s
                    | none => AVal.undefv) :: tailSlots)

/-- What one `_parseCommand` level does: dispatch to a subcommand (possibly
the implicit help child, the default child, or `*`), abort, invoke the bound
action with processed arguments, emit the `command:*` event, or fall through
to the caller. -/
inductive Outcome where
  | dispatched (name : String) (operands unknown : List String)
  | abort (a : Abort)
  | actionInvoked (args : List AVal)
  | commandStarEmitted (operands unknown : List String)
  | fallThrough
deriving DecidableEq, Repr

/-- `Command._parseCommand` for one level, over the node's configuration, the
post-parse stores of its ancestors (for the mandatory sweep), its own store,
and the incoming `operands`/`unknown` token lists.  Branches follow the
source in order: tokenize, subcommand dispatch, implicit help command,
default subcommand, then the terminal sequence (missing-subcommand help,
requested help, mandatory sweep, leftover unknown, positional binding and
action, `*` handling, help, fall through). -/
def _parseCommand (c : Cmd) (ancestors : List Frame) (store : Store)
    (operands0 unknown0 : List String) : Outcome :=
  match parseOptions c store unknown0 with
  | { st := _, err := some e } => Outcome.abort e
  | { st := pst, err := none } =>
    let operands := operands0 ++ pst.operands
    let unknown := pst.unknown
    let args := operands ++ unknown
    if (_findCommand c.commands operands.head?).isSome then
      Outcome.dispatched (operands.headD "") (operands.drop 1) unknown
    else if lazyHasImplicitHelpCommand c ∧ operands.head? = some c.helpCommandName then
      if operands.length = 1 then Outcome.abort (Abort.helpExit 0)
      else Outcome.dispatched (operands.getD 1 "") [] [c.helpLongFlag]
    else
      match c.defaultCommandName with
      | some dname =>
        if outputHelpIfRequested c unknown then Outcome.abort Abort.helpDisplayed
        else Outcome.dispatched dname operands unknown
      | none =>
        if !c.commands.isEmpty ∧ args.length = 0 ∧ !c.hasActionHandler then
          Outcome.abort (Abort.helpExit 1)
        else if outputHelpIfRequested c unknown then
          Outcome.abort Abort.helpDisplayed
        else
          match firstMissingMandatory ({ options := c.options, store := pst.store } :: ancestors) with
          | some o => Outcome.abort (Abort.missingMandatoryOptionValue o.flags)
          | none =>
            if 0 < unknown.length ∧ !c.allowUnknownOpt then
              Outcome.abort (Abort.unknownOption (unknown.headD ""))
            else if c.hasActionHandler then
              match bindArgs c.argDefs.length 0 c.argDefs args with
              | Except.error e => Outcome.abort e
              | Except.ok slots => Outcome.actionInvoked slots
            else if 0 < operands.length then
              if (_findCommand c.commands (some "*")).isSome then
                Outcome.dispatched "*" operands unknown
              else if c.hasCommandStarListener then
                Outcome.commandStarEmitted operands unknown
              else if !c.commands.isEmpty then
                Outcome.abort (Abort.unknownCommand (args.headD ""))
              else Outcome.fallThrough
            else if !c.commands.isEmpty then
              Outcome.abort (Abort.helpExit 1)
            else Outcome.fallThrough

/-! ## Array-mutation model of the tokenizer, for the aliasing contract

`parseOptions` receives a reference to the caller's `argv` array and works on
the copy `const args = argv.slice()`, mutating only the copy with `shift` and
`unshift`.  To state that the input array is never mutated, arrays live in a
small heap of references and the scan performs its shifts as heap writes. -/

/-- A heap of token arrays: an allocation counter and the backing memory. -/
structure Heap where
  next : Nat
  mem : Nat → List String

/-- Overwrite the array behind one reference. -/
def writeRef (h : Heap) (r : Nat) (v : List String) : Heap :=
  { next := h.next, mem := fun r2 => if r2 = r then v else h.mem r2 }

/-- The scan loop of `parseOptions` with its working array held in the heap:
every `args.shift()`/`args.unshift(...)` of the source is a `writeRef` to the
working reference, and nothing else is written. -/
def scanLoopH (c : Cmd) (h : Heap) (argsRef : Nat) (st : ScanSt) : ScanOut × Heap :=
  match hargs : h.mem argsRef with
  | [] => ({ st := st, err := none }, h)
  | arg :: rest =>
    if arg = "--" then
      let st1 := if st.destUnknown then pushDest st arg else consumeTok arg st
      ({ st := pushAllDest st1 rest, err := none }, writeRef h argsRef rest)
    else
      match findExact c arg with
      | some option =>
        if option.required then
          match rest with
          | [] =>
            ({ st := consumeTok arg st,
               err := some (Abort.optionMissingArgument option.flags) },
             writeRef h argsRef [])
          | v :: rest2 =>
            scanLoopH c (writeRef h argsRef rest2) argsRef
              (emitStep c option.name (JsVal.str v) (consumeVal v (consumeTok arg st)))
        else if option.optional then
          match rest with
          | v :: rest2 =>
            if maybeOption v then
              scanLoopH c (writeRef h argsRef (v :: rest2)) argsRef
                (emitStep c option.name JsVal.nullv (consumeTok arg st))
            else
              scanLoopH c (writeRef h argsRef rest2) argsRef
                (emitStep c option.name (JsVal.str v) (consumeVal v (consumeTok arg st)))
          | [] =>
            scanLoopH c (writeRef h argsRef []) argsRef
              (emitStep c option.name JsVal.nullv (consumeTok arg st))
        else
          scanLoopH c (writeRef h argsRef rest) argsRef
            (emitStep c option.name JsVal.undef (consumeTok arg st))
      | none =>
        match hcoH : findCombo c arg with
        | some option =>
          if option.required ∨ option.optional then
            scanLoopH c (writeRef h argsRef rest) argsRef
              (emitStep c option.name (JsVal.str (strFrom arg 2)) (consumeTok arg st))
          else
            scanLoopH c (writeRef h argsRef (comboRemainder arg :: rest)) argsRef
              (injectTok (comboRemainder arg)
                (emitStep c option.name JsVal.undef (consumeTok arg st)))
        | none =>
          match findLongEq c arg with
          | some (option, i) =>
            scanLoopH c (writeRef h argsRef rest) argsRef
              (emitStep c option.name (JsVal.str (strFrom arg (i + 1))) (consumeTok arg st))
          | none =>
            let st1 := if maybeOption arg then switchUnknown st else st
            scanLoopH c (writeRef h argsRef rest) argsRef (pushDest st1 arg)
termination_by tokMeasure (h.mem argsRef)
decreasing_by
  all_goals
    simp only [writeRef, eq_self_iff_true, if_true]
    rw [hargs]
    first
      | (simp only [tokMeasure]; omega)
      | (have hcs : comboShape arg = true := by
           by_contra hne
           unfold findCombo at hcoH
           rw [if_neg hne] at hcoH
           exact Option.noConfusion hcoH
         simp only [comboShape, decide_eq_true_eq, Bool.and_eq_true] at hcs
         simp only [tokMeasure, comboRemainder, List.length_cons, List.length_drop]
         omega)

/-- `parseOptions` at the heap level: copy the caller's array into a fresh
reference (`const args = argv.slice()`) and scan that copy. -/
def parseOptionsH (c : Cmd) (store : Store) (h : Heap) (argvRef : Nat) :
    ScanOut × Heap :=
  let argsRef := h.next
  let h1 : Heap :=
    { next := h.next + 1,
      mem := fun r => if r = argsRef then h.mem argvRef else h.mem r }
  scanLoopH c h1 argsRef { store := store }

/-- A plain option-name character: not a flag separator, bracket, dash, or
equals sign — the shape of ordinary option names such as `cheese`. -/
def cleanChar (ch : Char) : Bool :=
  !(ch == '-') && !(ch == ' ') && !(ch == ',') && !(ch == '|')
    && !(ch == '<') && !(ch == '[') && !(ch == '=')

/-! ## Theorems -/

set_option maxHeartbeats 4000000 in
/-- Heap frame property of the scan loop: the only reference the loop ever
writes is the working array's own reference. -/
theorem scanLoopH_frame (c : Cmd) (h : Heap) (argsRef : Nat) (st : ScanSt)
    (r : Nat) (hr : r ≠ argsRef) :
    ((scanLoopH c h argsRef st).2).mem r = h.mem r := by
  revert hr
  induction h, argsRef, st using scanLoopH.induct c <;> intro hr <;>
    rw [scanLoopH] <;> (repeat split) <;> (try simp_all [writeRef])
  all_goals casesm* _ ∧ _
  all_goals subst_vars
  all_goals try simp_all [writeRef]
  all_goals try ((repeat split) <;> simp_all [writeRef])
  all_goals assumption

/-- C10: `parseOptions` never mutates the token array passed to it — it scans
a fresh copy, so after the call the caller's `argv` array holds the same
elements in the same order, whatever the registered options and contents. -/
theorem C10_parseOptions_never_mutates_argv (c : Cmd) (store : Store)
    (h : Heap) (argvRef : Nat) (hfresh : argvRef < h.next) :
    ((parseOptionsH c store h argvRef).2).mem argvRef = h.mem argvRef := by
  have hne : argvRef ≠ h.next := Nat.ne_of_lt hfresh
  unfold parseOptionsH
  rw [scanLoopH_frame _ _ _ _ _ hne]
  simp [hne]

/-- Witness for C10: a concrete one-array heap is untouched by a parse. -/
theorem C10_witness :
    ((parseOptionsH emptyCmd initStore
        { next := 1, mem := fun r => if r = 0 then ["alpha", "-b"] else [] }
        0).2).mem 0 = ["alpha", "-b"] := by
  simpa using C10_parseOptions_never_mutates_argv emptyCmd initStore
    { next := 1, mem := fun r => if r = 0 then ["alpha", "-b"] else [] }
    0 (by decide)

set_option maxHeartbeats 4000000 in
/-- C4: a literal `--` stops option scanning.  When the destination is already
`unknown` the separator itself is pushed there too (but not when it is
`operands`), and every remaining token — whatever it is, in particular tokens
matching registered options — is appended verbatim, in order, to the
destination active at that moment; no further events fire and the store is
untouched. -/
theorem C4_literal_separator (c : Cmd) (st : ScanSt) (rest : List String) :
    scanLoop c ("--" :: rest) st =
      { st := if st.destUnknown then
                { st with unknown := st.unknown ++ "--" :: rest }
              else
                { st with operands := st.operands ++ rest,
                          consumed := st.consumed ++ ["--"] },
        err := none } := by
  rw [scanLoop.eq_def]
  cases hd : st.destUnknown <;>
    simp [hd, pushDest, pushAllDest, consumeTok]

/-- Counterexample to C8 as stated: with a child carrying alias `x` registered
before a child named `x`, lookup of `x` returns the alias match, not the exact
name match — registration order decides, not name-before-alias. -/
theorem C8_counterexample :
    _findCommand
      [{ name := "alpha", aliasName := some "x" }, { name := "x", aliasName := none }]
      (some "x") = some { name := "alpha", aliasName := some "x" } ∧
    _findCommand
      [{ name := "alpha", aliasName := some "x" }, { name := "x", aliasName := none }]
      (some "x") ≠ some { name := "x", aliasName := none } := by
  decide

/-- C8 amended: lookup returns the first registered child matching by name or
alias; a child matching by exact name is returned precisely when no
earlier-registered child matches by either name or alias. -/
theorem C8_first_registered_match_wins (pre post : List SubCmd) (ch : SubCmd)
    (n : String) (hn : n ≠ "") (hname : ch.name = n)
    (hpre : ∀ d ∈ pre, d.name ≠ n ∧ d.aliasName ≠ some n) :
    _findCommand (pre ++ ch :: post) (some n) = some ch := by
  simp only [_findCommand]
  rw [if_neg hn]
  induction pre with
  | nil =>
    rw [List.nil_append]
    rw [List.find?_cons_of_pos _ (by simp [hname])]
  | cons d ds ih =>
    have hd := hpre d (List.mem_cons_self d ds)
    rw [List.cons_append, List.find?_cons_of_neg _ (by simp [hd.1, hd.2])]
    exact ih (fun d2 hd2 => hpre d2 (List.mem_cons_of_mem d hd2))

/-- Witness for the amended C8 theorem at concrete children. -/
theorem C8_witness :
    _findCommand
      ([{ name := "other", aliasName := none }] ++
        [{ name := "x", aliasName := none }]) (some "x") =
      some { name := "x", aliasName := none } :=
  C8_first_registered_match_wins
    [{ name := "other", aliasName := none }] []
    { name := "x", aliasName := none } "x" (by decide) rfl (by decide)

/-- C6 amended: for a null-valued occurrence (boolean flag or optional flag
without a value) of a non-negation option without custom processing, when the
store holds no current value (undefined or boolean), the bound value becomes
the captured declared default when that default is truthy, and boolean `true`
when the default is undefined or otherwise falsy. -/
theorem C6_null_occurrence_truthy_default (L : Listener) (store : Store)
    (val : JsVal) (hneg : L.negate = false) (hfn : L.fn = none)
    (hcur : (store L.attrName).isBool = true ∨ store L.attrName = JsVal.undef)
    (hval : val = JsVal.nullv ∨ val = JsVal.undef) :
    applyListener L store val =
      setOptVal store L.attrName
        (if jsTruthy L.capturedDefault then L.capturedDefault
         else JsVal.bool true) := by
  unfold applyListener
  rw [hfn]
  rcases hval with rfl | rfl <;>
    simp [hcur, looseNull, hneg, jsOr]

/-- Witness for the amended C6 at a concrete listener and store. -/
theorem C6_witness :
    applyListener
      { oname := "pepper", attrName := "pepper", negate := false, fn := none,
        capturedDefault := JsVal.str "mozzarella" }
      initStore JsVal.nullv =
      setOptVal initStore "pepper"
        (if jsTruthy (JsVal.str "mozzarella") then JsVal.str "mozzarella"
         else JsVal.bool true) :=
  C6_null_occurrence_truthy_default _ _ _ rfl rfl (Or.inr rfl) (Or.inl rfl)

unseal scanLoop in
/-- Counterexample to C6 as stated: an option declared with the defined
boolean default `false` (so the store holds the boolean `false`); a bare
`-p` occurrence then binds `true`, not the defined default `false`, because
the binder computes `defaultValue || true` with JS truthiness. -/
theorem C6_counterexample :
    (Cmd.option emptyCmd initStore "-p, --pepper" "add pepper" none
        (JsVal.bool false)).opt.defaultValue = JsVal.bool false ∧
    (parseOptions
        (Cmd.option emptyCmd initStore "-p, --pepper" "add pepper" none
          (JsVal.bool false)).cmd
        (Cmd.option emptyCmd initStore "-p, --pepper" "add pepper" none
          (JsVal.bool false)).store
        ["-p"]).st.store "pepper" = JsVal.bool true ∧
    JsVal.bool true ≠ JsVal.bool false := by
  decide

/-- Splitting on flag separators is trivial when no separator occurs. -/
theorem splitSeps_clean (l : List Char) (h : ∀ ch ∈ l, sepChar ch = false) :
    splitSeps l = [l] := by
  induction l with
  | nil => rfl
  | cons ch rest ih =>
    have hch := h ch (List.mem_cons_self ch rest)
    rw [splitSeps.eq_def]
    dsimp only
    rw [if_neg (by simp [hch])]
    rw [ih (fun c hc => h c (List.mem_cons_of_mem ch hc))]

/-- Splitting on a character not occurring in the list is trivial. -/
theorem splitChar_not_mem (c : Char) (l : List Char) (h : c ∉ l) :
    splitChar c l = [l] := by
  induction l with
  | nil => rfl
  | cons ch rest ih =>
    rw [splitChar.eq_def]
    dsimp only
    rw [if_neg (by intro he; subst he; exact h (List.mem_cons_self _ _))]
    rw [ih (fun hc => h (List.mem_cons_of_mem ch hc))]

/-- Camel-casing a dash-free word is the identity. -/
theorem camelcase_no_dash (l : List Char) (h : '-' ∉ l) : camelcase l = l := by
  unfold camelcase
  rw [splitChar_not_mem _ _ h]
  rfl

/-- A character rejected by `cleanChar` does not occur in an all-clean list. -/
theorem not_mem_of_clean {l : List Char} (hall : l.all cleanChar = true)
    {c : Char} (hc : cleanChar c = false) : c ∉ l := by
  intro hm
  have h2 := List.all_eq_true.mp hall c hm
  rw [hc] at h2
  exact Bool.noConfusion h2

/-- Membership test is false for a character outside the list. -/
theorem contains_false_of_not_mem {l : List Char} {c : Char} (h : c ∉ l) :
    l.contains c = false := by
  simpa using h

/-- No character of an all-clean list is a flag separator. -/
theorem sep_false_of_clean {l : List Char} (hall : l.all cleanChar = true) :
    ∀ ch ∈ l, sepChar ch = false := by
  intro ch hm
  have hcl := List.all_eq_true.mp hall ch hm
  simp only [cleanChar, Bool.and_eq_true, Bool.not_eq_true'] at hcl
  obtain ⟨⟨⟨⟨⟨⟨h1, h2⟩, h3⟩, h4⟩, h5⟩, h6⟩, h7⟩ := hcl
  simp [sepChar, h2, h3, h4]

/-- Parsing a pure negation flags string `--no-<name>` (clean, dash-free
name): no value marker, no short flag, negation detected, the whole string as
the long flag. -/
theorem mkOption_negation (nm desc : String) (hclean : nm.data.all cleanChar = true) :
    mkOption ("--no-" ++ nm) desc =
      { flags := "--no-" ++ nm, description := desc, required := false,
        optional := false, mandatory := false, negate := true, short := none,
        long := "--no-" ++ nm } := by
  have hdata : ("--no-" ++ nm).data = '-' :: '-' :: 'n' :: 'o' :: '-' :: nm.data := by
    simp [String.data_append]
  have hreq : ("--no-" ++ nm).data.contains '<' = false := by
    rw [hdata]
    refine contains_false_of_not_mem ?_
    have hnm := not_mem_of_clean hclean (show cleanChar '<' = false by decide)
    simp [List.mem_cons, hnm]
  have hopt : ("--no-" ++ nm).data.contains '[' = false := by
    rw [hdata]
    refine contains_false_of_not_mem ?_
    have hnm := not_mem_of_clean hclean (show cleanChar '[' = false by decide)
    simp [List.mem_cons, hnm]
  have hneg : containsSeq "-no-".data ("--no-" ++ nm).data = true := by
    rw [hdata]
    simp [containsSeq, seqStarts]
  have hsplit : splitSeps ("--no-" ++ nm).data = [("--no-" ++ nm).data] := by
    refine splitSeps_clean _ ?_
    rw [hdata]
    intro ch hm
    simp only [List.mem_cons] at hm
    rcases hm with rfl | rfl | rfl | rfl | rfl | hm
    · decide
    · decide
    · decide
    · decide
    · decide
    · exact sep_false_of_clean hclean ch hm
  unfold mkOption
  rw [hsplit]
  dsimp only
  rw [hreq, hopt, hneg]

/-- The event name of a pure negation option: the long flag without its
leading dashes, `no-<name>`. -/
theorem mkOption_negation_name (nm desc : String)
    (hclean : nm.data.all cleanChar = true) :
    (mkOption ("--no-" ++ nm) desc).name = "no-" ++ nm := by
  rw [mkOption_negation nm desc hclean]
  show String.mk (dropLead "--".data ("--no-" ++ nm).data) = "no-" ++ nm
  have hdata : ("--no-" ++ nm).data = '-' :: '-' :: 'n' :: 'o' :: '-' :: nm.data := by
    simp [String.data_append]
  have hdata2 : ("no-" ++ nm).data = 'n' :: 'o' :: '-' :: nm.data := by
    simp [String.data_append]
  rw [hdata]
  simp only [dropLead, seqStarts]
  norm_num
  rw [← hdata2]

/-- The canonical store key of a pure negation option is the bare name. -/
theorem mkOption_negation_attr (nm desc : String)
    (hclean : nm.data.all cleanChar = true) :
    (mkOption ("--no-" ++ nm) desc).attributeName = nm := by
  unfold Opt.attributeName
  rw [mkOption_negation_name nm desc hclean]
  have hdata2 : ("no-" ++ nm).data = 'n' :: 'o' :: '-' :: nm.data := by
    simp [String.data_append]
  rw [hdata2]
  simp only [dropLead, seqStarts]
  norm_num
  rw [camelcase_no_dash _ (not_mem_of_clean hclean (by decide))]

/-- The positive counterpart probed for a pure negation option is the long
flag with the negation marker replaced, `--<name>`. -/
theorem mkOption_negation_positive (nm desc : String)
    (hclean : nm.data.all cleanChar = true) :
    replaceLead "--no-".data "--".data (mkOption ("--no-" ++ nm) desc).long.data
      = ("--" ++ nm).data := by
  rw [mkOption_negation nm desc hclean]
  have hdata : ("--no-" ++ nm).data = '-' :: '-' :: 'n' :: 'o' :: '-' :: nm.data := by
    simp [String.data_append]
  have hdata3 : ("--" ++ nm).data = '-' :: '-' :: nm.data := by
    simp [String.data_append]
  show replaceLead "--no-".data "--".data ("--no-" ++ nm).data = ("--" ++ nm).data
  rw [hdata, hdata3]
  simp [replaceLead, seqStarts]


/-- C5: for an option registered only by its negation spelling `--no-<name>`
on a command with no other options, the value stored under the canonical key
is boolean `true` as soon as the option is registered — before any parsing —
and after the tokenizer processes the token `--no-<name>` the stored value is
boolean `false`.  Holds for every clean dash-free name, every description and
every declared default (the negation rule overrides the passed default). -/
theorem C5_negation_defaults_true_then_false (nm desc : String) (d : JsVal)
    (hclean : nm.data.all cleanChar = true) :
    (Cmd.option emptyCmd initStore ("--no-" ++ nm) desc none d).store nm
        = JsVal.bool true ∧
    (parseOptions (Cmd.option emptyCmd initStore ("--no-" ++ nm) desc none d).cmd
        (Cmd.option emptyCmd initStore ("--no-" ++ nm) desc none d).store
        ["--no-" ++ nm]).st.store nm = JsVal.bool false := by
  have hdata : ("--no-" ++ nm).data = '-' :: '-' :: 'n' :: 'o' :: '-' :: nm.data := by
    simp [String.data_append]
  have hattr := mkOption_negation_attr nm desc hclean
  have hname := mkOption_negation_name nm desc hclean
  have hng : (mkOption ("--no-" ++ nm) desc).negate = true := by
    rw [mkOption_negation nm desc hclean]
  have hrq : (mkOption ("--no-" ++ nm) desc).required = false := by
    rw [mkOption_negation nm desc hclean]
  have hop : (mkOption ("--no-" ++ nm) desc).optional = false := by
    rw [mkOption_negation nm desc hclean]
  have hlong : (mkOption ("--no-" ++ nm) desc).long = "--no-" ++ nm := by
    rw [mkOption_negation nm desc hclean]
  have hshort : (mkOption ("--no-" ++ nm) desc).short = none := by
    rw [mkOption_negation nm desc hclean]
  have hfl : (mkOption ("--no-" ++ nm) desc).flags = "--no-" ++ nm := by
    rw [mkOption_negation nm desc hclean]
  have hdsc : (mkOption ("--no-" ++ nm) desc).description = desc := by
    rw [mkOption_negation nm desc hclean]
  have heta : ∀ s : String, String.mk s.data = s := fun _ => rfl
  have hfindpos : _findOption emptyCmd ("--" ++ nm) = none := rfl
  have hpos2 : replaceLead ['-', '-', 'n', 'o', '-'] ['-', '-'] ("--no-" ++ nm).data
      = ("--" ++ nm).data := by
    have h0 := mkOption_negation_positive nm desc hclean
    rw [hlong] at h0
    simpa using h0
  have hreg : Cmd.option emptyCmd initStore ("--no-" ++ nm) desc none d =
      { cmd :=
          { emptyCmd with
            options :=
              [{ flags := "--no-" ++ nm, description := desc, required := false,
                 optional := false, mandatory := false, negate := true,
                 short := none, long := "--no-" ++ nm,
                 defaultValue := JsVal.bool true }],
            listeners :=
              [{ oname := "no-" ++ nm, attrName := nm, negate := true,
                 fn := none, capturedDefault := JsVal.bool true }] },
        store := setOptVal initStore nm (JsVal.bool true),
        opt :=
          { flags := "--no-" ++ nm, description := desc, required := false,
            optional := false, mandatory := false, negate := true,
            short := none, long := "--no-" ++ nm,
            defaultValue := JsVal.bool true } } := by
    simp only [Cmd.option, _optionEx, hattr, hname, hpos2, hng, hrq, hop,
      hlong, hshort, hfl, hdsc, heta, hfindpos]
    simp [emptyCmd]
  constructor
  · rw [hreg]
    simp [setOptVal]
  · rw [hreg]
    have harg : ¬(("--no-" ++ nm) = "--") := by
      intro h
      have h2 := congrArg String.data h
      rw [hdata] at h2
      simp at h2
    have hmaybe : maybeOption ("--no-" ++ nm) = true := by
      simp [maybeOption, charAt, hdata]
    simp only [parseOptions]
    rw [scanLoop.eq_def]
    dsimp only
    rw [if_neg harg]
    simp only [findExact, hmaybe, if_true, _findOption, Opt.is, List.find?]
    have hname2 :
        Opt.name
          { flags := "--no-" ++ nm, description := desc, required := false,
            optional := false, mandatory := false, negate := true,
            short := none, long := "--no-" ++ nm,
            defaultValue := JsVal.bool true } = "no-" ++ nm := by
      show String.mk (dropLead "--".data ("--no-" ++ nm).data) = "no-" ++ nm
      have hdata2 : ("no-" ++ nm).data = 'n' :: 'o' :: '-' :: nm.data := by
        simp [String.data_append]
      rw [hdata]
      simp only [dropLead, seqStarts]
      norm_num
      rw [← hdata2]
    simp only [show ((none : Option String) == some ("--no-" ++ nm)) = false from rfl,
      beq_self_eq_true, Bool.false_or]
    dsimp only
    rw [scanLoop.eq_def]
    dsimp only
    simp [emitStep, emitOption, hname2, applyListener, consumeTok, setOptVal,
      looseNull]
    rw [scanLoop.eq_def]
    simp [setOptVal]

/-- Witness for C5 at the concrete `--no-cheese` option of the spec. -/
theorem C5_witness :
    (Cmd.option emptyCmd initStore ("--no-" ++ "cheese") "remove cheese" none
        JsVal.undef).store "cheese" = JsVal.bool true ∧
    (parseOptions
        (Cmd.option emptyCmd initStore ("--no-" ++ "cheese") "remove cheese" none
          JsVal.undef).cmd
        (Cmd.option emptyCmd initStore ("--no-" ++ "cheese") "remove cheese" none
          JsVal.undef).store
        ["--no-" ++ "cheese"]).st.store "cheese" = JsVal.bool false :=
  C5_negation_defaults_true_then_false "cheese" "remove cheese" JsVal.undef
    (by decide)

/-- C9: registering `--no-<name>` on a command where a positive option for
`--<name>` is already registered pre-assigns the current stored value of the
shared canonical key as the negation's default — not boolean `true`; the
installed listener captures that same value, the stored value is unchanged,
and when the stored value is undefined no pre-assignment happens at all and
the negation option's `defaultValue` stays undefined. -/
theorem C9_negation_uses_positive_stored_value (c : Cmd) (s : Store)
    (nm desc : String) (d : JsVal)
    (hclean : nm.data.all cleanChar = true)
    (hpos : (_findOption c ("--" ++ nm)).isSome = true) :
    (Cmd.option c s ("--no-" ++ nm) desc none d).opt.defaultValue = s nm ∧
    (Cmd.option c s ("--no-" ++ nm) desc none d).cmd.listeners =
      c.listeners ++
        [{ oname := "no-" ++ nm, attrName := nm, negate := true, fn := none,
           capturedDefault := s nm }] ∧
    (Cmd.option c s ("--no-" ++ nm) desc none d).store nm = s nm ∧
    (s nm = JsVal.undef →
      (Cmd.option c s ("--no-" ++ nm) desc none d).store = s) := by
  have hattr := mkOption_negation_attr nm desc hclean
  have hname := mkOption_negation_name nm desc hclean
  have hng : (mkOption ("--no-" ++ nm) desc).negate = true := by
    rw [mkOption_negation nm desc hclean]
  have hlong : (mkOption ("--no-" ++ nm) desc).long = "--no-" ++ nm := by
    rw [mkOption_negation nm desc hclean]
  have hdv : (mkOption ("--no-" ++ nm) desc).defaultValue = JsVal.undef := by
    rw [mkOption_negation nm desc hclean]
  have heta : ∀ s2 : String, String.mk s2.data = s2 := fun _ => rfl
  have hpos2 : replaceLead ['-', '-', 'n', 'o', '-'] ['-', '-'] ("--no-" ++ nm).data
      = ("--" ++ nm).data := by
    have h0 := mkOption_negation_positive nm desc hclean
    rw [hlong] at h0
    simpa using h0
  have hposne : _findOption c ("--" ++ nm) ≠ none :=
    Option.isSome_iff_ne_none.mp hpos
  by_cases hs : s nm = JsVal.undef
  · simp only [Cmd.option, _optionEx, hattr, hname, hpos2, hng, hdv, hlong, heta]
    simp [hpos, hposne, hs]
  · simp only [Cmd.option, _optionEx, hattr, hname, hpos2, hng, hdv, hlong, heta]
    simp [hpos, hposne, hs, setOptVal]

/-- Witness for C9: `--cheese <type>` registered with default `"mozz"`, then
`--no-cheese`; the negation's pre-assigned default is the stored `"mozz"`. -/
theorem C9_witness :
    (Cmd.option
        (Cmd.option emptyCmd initStore "--cheese <type>" "cheese type" none
          (JsVal.str "mozz")).cmd
        (Cmd.option emptyCmd initStore "--cheese <type>" "cheese type" none
          (JsVal.str "mozz")).store
        ("--no-" ++ "cheese") "remove cheese" none JsVal.undef).opt.defaultValue =
      (Cmd.option emptyCmd initStore "--cheese <type>" "cheese type" none
        (JsVal.str "mozz")).store "cheese" :=
  (C9_negation_uses_positive_stored_value
    (Cmd.option emptyCmd initStore "--cheese <type>" "cheese type" none
      (JsVal.str "mozz")).cmd
    (Cmd.option emptyCmd initStore "--cheese <type>" "cheese type" none
      (JsVal.str "mozz")).store
    "cheese" "remove cheese" JsVal.undef (by decide) (by decide)).1

set_option maxHeartbeats 4000000 in
/-- Token accounting of the scan loop: the multiset of tokens still to scan,
plus everything already collected, plus whatever synthetic tokens the run will
inject, balances against the collected outputs — every processed token lands
in `operands`, `unknown`, or `consumed`, and only injected synthetics are
fabricated. -/
theorem scanLoop_account (c : Cmd) (args : List String) (st : ScanSt) :
    (↑args : Multiset String) + ↑st.operands + ↑st.unknown + ↑st.consumed
        + ↑(scanLoop c args st).st.injected
      = ↑(scanLoop c args st).st.operands + ↑(scanLoop c args st).st.unknown
        + ↑(scanLoop c args st).st.consumed + ↑st.injected := by
  induction args, st using scanLoop.induct c with
  | case1 st =>
    rw [scanLoop.eq_def]
    simp
  | case2 st rest =>
    rw [scanLoop.eq_def]
    dsimp only
    rw [if_pos rfl]
    by_cases hd : st.destUnknown = true <;>
      simp only [hd, pushDest, pushAllDest, consumeTok, Bool.false_eq_true,
        if_true, if_false, ite_true, ite_false, Bool.true_eq_false] <;>
      simp only [← Multiset.cons_coe, ← Multiset.singleton_add,
        ← Multiset.coe_add, Multiset.coe_nil] <;>
      abel
  | case3 st a harg o hfe hreq =>
    rw [scanLoop.eq_def]
    dsimp only
    rw [if_neg harg, hfe]
    try dsimp only
    rw [if_pos hreq]
    simp only [consumeTok]
    simp only [← Multiset.cons_coe, ← Multiset.singleton_add,
      ← Multiset.coe_add, Multiset.coe_nil]
    abel
  | case4 st a harg o hfe hreq v rest ih =>
    rw [scanLoop.eq_def]
    dsimp only
    rw [if_neg harg, hfe]
    try dsimp only
    rw [if_pos hreq]
    simp only [emitStep, consumeVal, consumeTok] at ih ⊢
    rw [← ih]
    simp only [← Multiset.cons_coe, ← Multiset.singleton_add,
      ← Multiset.coe_add, Multiset.coe_nil]
    abel
  | case5 st a harg o hfe hnreq hopt v rest2 hmo ih =>
    rw [scanLoop.eq_def]
    dsimp only
    rw [if_neg harg, hfe]
    dsimp only
    rw [if_neg hnreq, if_pos hopt]
    try dsimp only
    rw [if_pos hmo]
    simp only [emitStep, consumeTok] at ih ⊢
    rw [← ih]
    simp only [← Multiset.cons_coe, ← Multiset.singleton_add,
      ← Multiset.coe_add, Multiset.coe_nil]
    abel
  | case6 st a harg o hfe hnreq hopt v rest2 hnmo ih =>
    rw [scanLoop.eq_def]
    dsimp only
    rw [if_neg harg, hfe]
    dsimp only
    rw [if_neg hnreq, if_pos hopt]
    try dsimp only
    rw [if_neg hnmo]
    simp only [emitStep, consumeVal, consumeTok] at ih ⊢
    rw [← ih]
    simp only [← Multiset.cons_coe, ← Multiset.singleton_add,
      ← Multiset.coe_add, Multiset.coe_nil]
    abel
  | case7 st a harg o hfe hnreq hopt ih =>
    rw [scanLoop.eq_def]
    dsimp only
    rw [if_neg harg, hfe]
    dsimp only
    rw [if_neg hnreq, if_pos hopt]
    simp only [emitStep, consumeTok] at ih ⊢
    rw [← ih]
    simp only [← Multiset.cons_coe, ← Multiset.singleton_add,
      ← Multiset.coe_add, Multiset.coe_nil]
    abel
  | case8 st a rest harg o hfe hnreq hnopt ih =>
    rw [scanLoop.eq_def]
    dsimp only
    rw [if_neg harg, hfe]
    dsimp only
    rw [if_neg hnreq, if_neg hnopt]
    simp only [emitStep, consumeTok] at ih ⊢
    rw [← ih]
    simp only [← Multiset.cons_coe, ← Multiset.singleton_add,
      ← Multiset.coe_add, Multiset.coe_nil]
    abel
  | case9 st a rest harg hfe option hco hro ih =>
    rw [scanLoop.eq_def]
    dsimp only
    rw [if_neg harg, hfe]
    dsimp only
    split
    · rename_i o2 heq
      rw [hco] at heq
      obtain rfl : option = o2 := by injection heq
      rw [if_pos hro]
      simp only [emitStep, consumeTok] at ih ⊢
      rw [← ih]
      simp only [← Multiset.cons_coe, ← Multiset.singleton_add,
        ← Multiset.coe_add, Multiset.coe_nil]
      abel
    · rename_i heq
      rw [hco] at heq
      exact Option.noConfusion heq
  | case10 st a rest harg hfe option hco hnro ih =>
    rw [scanLoop.eq_def]
    dsimp only
    rw [if_neg harg, hfe]
    dsimp only
    split
    · rename_i o2 heq
      rw [hco] at heq
      obtain rfl : option = o2 := by injection heq
      rw [if_neg hnro]
      have key := ih
      simp only [emitStep, consumeTok, injectTok] at key ⊢
      rw [← add_left_inj (↑[comboRemainder a] : Multiset String)]
      simp only [← Multiset.cons_coe, ← Multiset.singleton_add,
        ← Multiset.coe_add, Multiset.coe_nil] at key ⊢
      abel_nf at key ⊢
      exact key
    · rename_i heq
      rw [hco] at heq
      exact Option.noConfusion heq
  | case11 st a rest harg hfe hco option i hleq ih =>
    rw [scanLoop.eq_def]
    dsimp only
    rw [if_neg harg, hfe]
    dsimp only
    split
    · rename_i o2 heq
      rw [hco] at heq
      exact Option.noConfusion heq
    · rw [hleq]
      dsimp only
      simp only [emitStep, consumeTok] at ih ⊢
      rw [← ih]
      simp only [← Multiset.cons_coe, ← Multiset.singleton_add,
        ← Multiset.coe_add, Multiset.coe_nil]
      abel
  | case12 st a rest harg hfe hco hleq st1 ih =>
    rw [scanLoop.eq_def]
    try dsimp only
    rw [if_neg harg, hfe]
    try dsimp only
    split
    · rename_i o2 heq
      rw [hco] at heq
      exact Option.noConfusion heq
    · rw [hleq]
      try dsimp only
      have hst1 : st1 = if h : maybeOption a = true then switchUnknown st else st := rfl
      by_cases hmo : maybeOption a = true
      · rw [dif_pos hmo] at hst1
        rw [hst1] at ih
        rw [if_pos hmo]
        by_cases hd : st.destUnknown = true <;>
          simp only [pushDest, switchUnknown, hd, Bool.false_eq_true, if_true,
            if_false, ite_true, ite_false, Bool.true_eq_false] at ih ⊢ <;>
          rw [← ih] <;>
          simp only [← Multiset.cons_coe, ← Multiset.singleton_add,
            ← Multiset.coe_add, Multiset.coe_nil] <;>
          abel
      · rw [dif_neg hmo] at hst1
        rw [hst1] at ih
        rw [if_neg hmo]
        by_cases hd : st.destUnknown = true <;>
          simp only [pushDest, switchUnknown, hd, Bool.false_eq_true, if_true,
            if_false, ite_true, ite_false, Bool.true_eq_false] at ih ⊢ <;>
          rw [← ih] <;>
          simp only [← Multiset.cons_coe, ← Multiset.singleton_add,
            ← Multiset.coe_add, Multiset.coe_nil] <;>
          abel

set_option maxHeartbeats 4000000 in
/-- Operand order: the scan only ever appends to `operands`, the appended
tokens form a subsequence of the scanned tokens, and when the next token is
option-shaped they even form a subsequence of the following tokens. -/
theorem scanLoop_operands_order (c : Cmd) (args : List String) (st : ScanSt) :
    ∃ δ, (scanLoop c args st).st.operands = st.operands ++ δ ∧ δ.Sublist args ∧
      (∀ a rest2, args = a :: rest2 → maybeOption a = true → δ.Sublist rest2) := by
  induction args, st using scanLoop.induct c with
  | case1 st =>
    refine ⟨[], ?_, List.nil_sublist _, ?_⟩
    · rw [scanLoop.eq_def]
      simp
    · intro a r h
      exact absurd h (List.cons_ne_nil a r).symm
  | case2 st rest =>
    rw [scanLoop.eq_def]
    dsimp only
    rw [if_pos rfl]
    by_cases hd : st.destUnknown = true <;>
      simp only [hd, pushDest, pushAllDest, consumeTok, Bool.false_eq_true,
        if_true, if_false, ite_true, ite_false, Bool.true_eq_false]
    · exact ⟨[], by simp, List.nil_sublist _, fun a r h hm => List.nil_sublist _⟩
    · refine ⟨rest, by simp, (List.Sublist.refl rest).cons _, ?_⟩
      intro a r h hm
      injection h with h1 h2
      exact h2 ▸ List.Sublist.refl rest
  | case3 st a harg o hfe hreq =>
    rw [scanLoop.eq_def]
    try dsimp only
    rw [if_neg harg, hfe]
    try dsimp only
    rw [if_pos hreq]
    exact ⟨[], by simp [consumeTok], List.nil_sublist _,
      fun _ _ _ _ => List.nil_sublist _⟩
  | case4 st a harg o hfe hreq v rest ih =>
    rw [scanLoop.eq_def]
    try dsimp only
    rw [if_neg harg, hfe]
    try dsimp only
    rw [if_pos hreq]
    obtain ⟨δ, h1, h2, h3⟩ := ih
    refine ⟨δ, ?_, ((h2.cons v).cons a : δ.Sublist (a :: v :: rest)), ?_⟩
    · simpa [emitStep, consumeVal, consumeTok] using h1
    · intro a2 r2 heq hm
      obtain rfl : v :: rest = r2 := (List.cons.injEq _ _ _ _ ▸ heq).2
      exact h2.cons v
  | case5 st a harg o hfe hnreq hopt v rest2 hmo ih =>
    rw [scanLoop.eq_def]
    try dsimp only
    rw [if_neg harg, hfe]
    try dsimp only
    rw [if_neg hnreq, if_pos hopt]
    try dsimp only
    rw [if_pos hmo]
    obtain ⟨δ, h1, h2, h3⟩ := ih
    refine ⟨δ, ?_, (h2.cons a : δ.Sublist (a :: v :: rest2)), ?_⟩
    · simpa [emitStep, consumeTok] using h1
    · intro a2 r2 heq hm
      obtain rfl : v :: rest2 = r2 := (List.cons.injEq _ _ _ _ ▸ heq).2
      exact h2
  | case6 st a harg o hfe hnreq hopt v rest2 hnmo ih =>
    rw [scanLoop.eq_def]
    try dsimp only
    rw [if_neg harg, hfe]
    try dsimp only
    rw [if_neg hnreq, if_pos hopt]
    try dsimp only
    rw [if_neg hnmo]
    obtain ⟨δ, h1, h2, h3⟩ := ih
    refine ⟨δ, ?_, ((h2.cons v).cons a : δ.Sublist (a :: v :: rest2)), ?_⟩
    · simpa [emitStep, consumeVal, consumeTok] using h1
    · intro a2 r2 heq hm
      obtain rfl : v :: rest2 = r2 := (List.cons.injEq _ _ _ _ ▸ heq).2
      exact h2.cons v
  | case7 st a harg o hfe hnreq hopt ih =>
    rw [scanLoop.eq_def]
    try dsimp only
    rw [if_neg harg, hfe]
    try dsimp only
    rw [if_neg hnreq, if_pos hopt]
    obtain ⟨δ, h1, h2, h3⟩ := ih
    refine ⟨δ, ?_, ?_, ?_⟩
    · simpa [emitStep, consumeTok] using h1
    · simpa using (h2.cons a : δ.Sublist [a])
    · intro a2 r2 heq hm
      obtain rfl : ([] : List String) = r2 := (List.cons.injEq _ _ _ _ ▸ heq).2
      exact h2
  | case8 st a rest harg o hfe hnreq hnopt ih =>
    rw [scanLoop.eq_def]
    try dsimp only
    rw [if_neg harg, hfe]
    try dsimp only
    rw [if_neg hnreq, if_neg hnopt]
    obtain ⟨δ, h1, h2, h3⟩ := ih
    refine ⟨δ, ?_, h2.cons a, ?_⟩
    · simpa [emitStep, consumeTok] using h1
    · intro a2 r2 heq hm
      obtain rfl : rest = r2 := (List.cons.injEq _ _ _ _ ▸ heq).2
      exact h2
  | case9 st a rest harg hfe option hco hro ih =>
    rw [scanLoop.eq_def]
    try dsimp only
    rw [if_neg harg, hfe]
    try dsimp only
    split
    · rename_i o2 heq
      rw [hco] at heq
      obtain rfl : option = o2 := by injection heq
      rw [if_pos hro]
      obtain ⟨δ, h1, h2, h3⟩ := ih
      refine ⟨δ, ?_, h2.cons a, ?_⟩
      · simpa [emitStep, consumeTok] using h1
      · intro a2 r2 heq2 hm
        obtain rfl : rest = r2 := (List.cons.injEq _ _ _ _ ▸ heq2).2
        exact h2
    · rename_i heq
      rw [hco] at heq
      exact Option.noConfusion heq
  | case10 st a rest harg hfe option hco hnro ih =>
    rw [scanLoop.eq_def]
    try dsimp only
    rw [if_neg harg, hfe]
    try dsimp only
    split
    · rename_i o2 heq
      rw [hco] at heq
      obtain rfl : option = o2 := by injection heq
      rw [if_neg hnro]
      obtain ⟨δ, h1, h2, h3⟩ := ih
      have hcs : comboShape a = true := by
        by_contra hne
        unfold findCombo at hco
        rw [if_neg hne] at hco
        exact Option.noConfusion hco
      have hmoc : maybeOption (comboRemainder a) = true := by
        simp only [comboShape, decide_eq_true_eq, Bool.and_eq_true] at hcs
        simp only [maybeOption, comboRemainder, charAt, Bool.and_eq_true,
          decide_eq_true_eq, List.length_cons, List.length_drop]
        constructor
        · omega
        · simp
      have hδ : δ.Sublist rest := h3 _ _ rfl hmoc
      refine ⟨δ, ?_, hδ.cons a, ?_⟩
      · simpa [emitStep, consumeTok, injectTok] using h1
      · intro a2 r2 heq2 hm
        obtain rfl : rest = r2 := (List.cons.injEq _ _ _ _ ▸ heq2).2
        exact hδ
    · rename_i heq
      rw [hco] at heq
      exact Option.noConfusion heq
  | case11 st a rest harg hfe hco option i hleq ih =>
    rw [scanLoop.eq_def]
    try dsimp only
    rw [if_neg harg, hfe]
    try dsimp only
    split
    · rename_i o2 heq
      rw [hco] at heq
      exact Option.noConfusion heq
    · rw [hleq]
      try dsimp only
      obtain ⟨δ, h1, h2, h3⟩ := ih
      refine ⟨δ, ?_, h2.cons a, ?_⟩
      · simpa [emitStep, consumeTok] using h1
      · intro a2 r2 heq2 hm
        obtain rfl : rest = r2 := (List.cons.injEq _ _ _ _ ▸ heq2).2
        exact h2
  | case12 st a rest harg hfe hco hleq st1 ih =>
    rw [scanLoop.eq_def]
    try dsimp only
    rw [if_neg harg, hfe]
    try dsimp only
    split
    · rename_i o2 heq
      rw [hco] at heq
      exact Option.noConfusion heq
    · rw [hleq]
      try dsimp only
      have hst1 : st1 = if h : maybeOption a = true then switchUnknown st else st := rfl
      obtain ⟨δ, h1, h2, h3⟩ := ih
      by_cases hmo : maybeOption a = true
      · rw [dif_pos hmo] at hst1
        rw [hst1] at h1
        rw [if_pos hmo]
        refine ⟨δ, ?_, h2.cons a, ?_⟩
        · simpa [pushDest, switchUnknown] using h1
        · intro a2 r2 heq2 hm
          obtain rfl : rest = r2 := (List.cons.injEq _ _ _ _ ▸ heq2).2
          exact h2
      · rw [dif_neg hmo] at hst1
        rw [hst1] at h1
        rw [if_neg hmo]
        by_cases hd : st.destUnknown = true
        · refine ⟨δ, ?_, h2.cons a, ?_⟩
          · simpa [pushDest, hd] using h1
          · intro a2 r2 heq2 hm
            obtain rfl : a = a2 := (List.cons.injEq _ _ _ _ ▸ heq2).1
            exact absurd hm hmo
        · refine ⟨a :: δ, ?_, h2.cons₂ a, ?_⟩
          · rw [h1]
            simp [pushDest, hd]
          · intro a2 r2 heq2 hm
            obtain rfl : a = a2 := (List.cons.injEq _ _ _ _ ▸ heq2).1
            exact absurd hm hmo

unseal scanLoop in
/-- Counterexample to C1 as stated: with `-p, --pepper` registered as a
boolean option, the input `["-p"]` produces empty `operands`, empty `unknown`
and no consumed option values — the multiset union of those three is empty
and does not equal the input multiset, because the recognized flag token
itself is consumed without being an option value. -/
theorem C1_counterexample :
    (parseOptions
        (Cmd.option emptyCmd initStore "-p, --pepper" "add pepper" none
          JsVal.undef).cmd
        (Cmd.option emptyCmd initStore "-p, --pepper" "add pepper" none
          JsVal.undef).store
        ["-p"]).st.operands = [] ∧
    (parseOptions
        (Cmd.option emptyCmd initStore "-p, --pepper" "add pepper" none
          JsVal.undef).cmd
        (Cmd.option emptyCmd initStore "-p, --pepper" "add pepper" none
          JsVal.undef).store
        ["-p"]).st.unknown = [] ∧
    (parseOptions
        (Cmd.option emptyCmd initStore "-p, --pepper" "add pepper" none
          JsVal.undef).cmd
        (Cmd.option emptyCmd initStore "-p, --pepper" "add pepper" none
          JsVal.undef).store
        ["-p"]).st.consumedValues = [] ∧
    ¬ ((↑([] : List String) + ↑([] : List String) + ↑([] : List String)
          : Multiset String) = ↑(["-p"] : List String)) := by
  refine ⟨by decide, by decide, by decide, ?_⟩
  decide

/-- C1 amended: for every tokenizer run, the input token multiset plus the
synthetic `-<remainder>` tokens injected while splitting short-option
clusters equals the multiset union of the returned `operands`, the returned
`unknown` tokens, and all consumed tokens — option flags, their consumed
values, `--name=value` tokens, cluster tokens and a `--` separator dropped in
operand mode; and the `operands` sequence preserves the input's relative
order (it is a subsequence of the input). -/
theorem C1_token_accounting (c : Cmd) (store : Store) (argv : List String) :
    ((↑argv : Multiset String) + ↑(parseOptions c store argv).st.injected
      = ↑(parseOptions c store argv).st.operands
        + ↑(parseOptions c store argv).st.unknown
        + ↑(parseOptions c store argv).st.consumed) ∧
    (parseOptions c store argv).st.operands.Sublist argv := by
  constructor
  · have h := scanLoop_account c argv { store := store }
    simpa [parseOptions] using h
  · obtain ⟨δ, h1, h2, _⟩ := scanLoop_operands_order c argv { store := store }
    simp only [parseOptions] at *
    rw [h1]
    simpa using h2

unseal scanLoop in
/-- C7: for a single-dash token longer than two characters that matches no
registered flag as a whole but whose second character matches a registered
short flag — when the matched option takes a value, the token's remainder
after the two-character prefix is emitted immediately as its value; when it
is boolean, the occurrence is emitted with no value and the synthetic token
`-<remainder>` is pushed onto the front of the remaining queue.  In
particular, for `-px` with `-p, --pepper` boolean and `-x, --xval <v>`
required-value both registered, `-p` is emitted as a boolean occurrence and
the re-processed `-x` aborts with `optionMissingArgument` since no token
follows. -/
theorem C7_cluster_dispatch (c : Cmd) (arg : String) (rest : List String)
    (st : ScanSt) (option : Opt)
    (hfe : findExact c arg = none)
    (hco : findCombo c arg = some option) :
    (option.required = true ∨ option.optional = true →
      scanLoop c (arg :: rest) st =
        scanLoop c rest
          (emitStep c option.name (JsVal.str (strFrom arg 2)) (consumeTok arg st))) ∧
    (¬(option.required = true ∨ option.optional = true) →
      scanLoop c (arg :: rest) st =
        scanLoop c (comboRemainder arg :: rest)
          (injectTok (comboRemainder arg)
            (emitStep c option.name JsVal.undef (consumeTok arg st)))) ∧
    (parseOptions
        (Cmd.option
          (Cmd.option emptyCmd initStore "-p, --pepper" "add pepper" none
            JsVal.undef).cmd
          (Cmd.option emptyCmd initStore "-p, --pepper" "add pepper" none
            JsVal.undef).store
          "-x, --xval <v>" "x value" none JsVal.undef).cmd
        (Cmd.option
          (Cmd.option emptyCmd initStore "-p, --pepper" "add pepper" none
            JsVal.undef).cmd
          (Cmd.option emptyCmd initStore "-p, --pepper" "add pepper" none
            JsVal.undef).store
          "-x, --xval <v>" "x value" none JsVal.undef).store
        ["-px"]).err = some (Abort.optionMissingArgument "-x, --xval <v>") ∧
    (parseOptions
        (Cmd.option
          (Cmd.option emptyCmd initStore "-p, --pepper" "add pepper" none
            JsVal.undef).cmd
          (Cmd.option emptyCmd initStore "-p, --pepper" "add pepper" none
            JsVal.undef).store
          "-x, --xval <v>" "x value" none JsVal.undef).cmd
        (Cmd.option
          (Cmd.option emptyCmd initStore "-p, --pepper" "add pepper" none
            JsVal.undef).cmd
          (Cmd.option emptyCmd initStore "-p, --pepper" "add pepper" none
            JsVal.undef).store
          "-x, --xval <v>" "x value" none JsVal.undef).store
        ["-px"]).st.events = [("pepper", JsVal.undef)] := by
  have hcs : comboShape arg = true := by
    by_contra hne
    unfold findCombo at hco
    rw [if_neg hne] at hco
    exact Option.noConfusion hco
  have harg : ¬ arg = "--" := by
    intro h
    subst h
    exact absurd hcs (by decide)
  refine ⟨?_, ?_, by decide, by decide⟩
  · intro hro
    rw [scanLoop.eq_def]
    try dsimp only
    rw [if_neg harg, hfe]
    try dsimp only
    split
    · rename_i o2 heq
      rw [hco] at heq
      obtain rfl : option = o2 := by injection heq
      rw [if_pos hro]
    · rename_i heq
      rw [hco] at heq
      exact Option.noConfusion heq
  · intro hnro
    rw [scanLoop.eq_def]
    try dsimp only
    rw [if_neg harg, hfe]
    try dsimp only
    split
    · rename_i o2 heq
      rw [hco] at heq
      obtain rfl : option = o2 := by injection heq
      rw [if_neg hnro]
    · rename_i heq
      rw [hco] at heq
      exact Option.noConfusion heq

unseal scanLoop in
/-- Witness for C7: the cluster rule applied for `-px` against the scenario's
command, with the boolean `-p, --pepper` heading the cluster. -/
theorem C7_witness :
    scanLoop
        (Cmd.option
          (Cmd.option emptyCmd initStore "-p, --pepper" "add pepper" none
            JsVal.undef).cmd
          (Cmd.option emptyCmd initStore "-p, --pepper" "add pepper" none
            JsVal.undef).store
          "-x, --xval <v>" "x value" none JsVal.undef).cmd
        ("-px" :: [])
        { store := (Cmd.option
            (Cmd.option emptyCmd initStore "-p, --pepper" "add pepper" none
              JsVal.undef).cmd
            (Cmd.option emptyCmd initStore "-p, --pepper" "add pepper" none
              JsVal.undef).store
            "-x, --xval <v>" "x value" none JsVal.undef).store } =
      scanLoop
        (Cmd.option
          (Cmd.option emptyCmd initStore "-p, --pepper" "add pepper" none
            JsVal.undef).cmd
          (Cmd.option emptyCmd initStore "-p, --pepper" "add pepper" none
            JsVal.undef).store
          "-x, --xval <v>" "x value" none JsVal.undef).cmd
        (comboRemainder "-px" :: [])
        (injectTok (comboRemainder "-px")
          (emitStep
            (Cmd.option
              (Cmd.option emptyCmd initStore "-p, --pepper" "add pepper" none
                JsVal.undef).cmd
              (Cmd.option emptyCmd initStore "-p, --pepper" "add pepper" none
                JsVal.undef).store
              "-x, --xval <v>" "x value" none JsVal.undef).cmd
            (Opt.name
              (Cmd.option emptyCmd initStore "-p, --pepper" "add pepper" none
                JsVal.undef).opt)
            JsVal.undef
            (consumeTok "-px"
              { store := (Cmd.option
                  (Cmd.option emptyCmd initStore "-p, --pepper" "add pepper" none
                    JsVal.undef).cmd
                  (Cmd.option emptyCmd initStore "-p, --pepper" "add pepper" none
                    JsVal.undef).store
                  "-x, --xval <v>" "x value" none JsVal.undef).store }))) :=
  (C7_cluster_dispatch _ "-px" []
      { store := (Cmd.option
          (Cmd.option emptyCmd initStore "-p, --pepper" "add pepper" none
            JsVal.undef).cmd
          (Cmd.option emptyCmd initStore "-p, --pepper" "add pepper" none
            JsVal.undef).store
          "-x, --xval <v>" "x value" none JsVal.undef).store }
      (Cmd.option emptyCmd initStore "-p, --pepper" "add pepper" none
        JsVal.undef).opt
      (by decide) (by decide)).2.1 (by decide)

/-- At a terminal level — tokenizing raised no error, the first operand names
no subcommand, the implicit help command is not being invoked, no default
subcommand is configured, and an action handler is bound — `_parseCommand`
reduces to the fixed chain of checks in source order: requested help, the
mandatory-option sweep, the leftover-unknown check, then positional binding
feeding the action. -/
theorem parseCommand_terminal_eq (c : Cmd) (ancestors : List Frame)
    (store : Store) (operands0 unknown0 : List String)
    (hact : c.hasActionHandler = true)
    (hdef : c.defaultCommandName = none)
    (herr : (parseOptions c store unknown0).err = none)
    (hsub : _findCommand c.commands
        (operands0 ++ (parseOptions c store unknown0).st.operands).head? = none)
    (hhelp : ¬(lazyHasImplicitHelpCommand c = true ∧
        (operands0 ++ (parseOptions c store unknown0).st.operands).head? =
          some c.helpCommandName)) :
    _parseCommand c ancestors store operands0 unknown0 =
      (if outputHelpIfRequested c (parseOptions c store unknown0).st.unknown then
        Outcome.abort Abort.helpDisplayed
      else
        match firstMissingMandatory
            ({ options := c.options,
               store := (parseOptions c store unknown0).st.store } :: ancestors) with
        | some o => Outcome.abort (Abort.missingMandatoryOptionValue o.flags)
        | none =>
          if 0 < (parseOptions c store unknown0).st.unknown.length ∧
              !c.allowUnknownOpt then
            Outcome.abort
              (Abort.unknownOption
                ((parseOptions c store unknown0).st.unknown.headD ""))
          else
            match bindArgs c.argDefs.length 0 c.argDefs
                (operands0 ++ (parseOptions c store unknown0).st.operands ++
                  (parseOptions c store unknown0).st.unknown) with
            | Except.error e => Outcome.abort e
            | Except.ok slots => Outcome.actionInvoked slots) := by
  unfold _parseCommand
  rcases hpo : parseOptions c store unknown0 with ⟨pst, err⟩
  rw [hpo] at herr hsub hhelp
  dsimp only at herr hsub hhelp ⊢
  subst herr
  dsimp only
  rw [hsub]
  simp only [Option.isSome_none, Bool.false_eq_true, if_false]
  rw [if_neg hhelp, hdef]
  dsimp only
  simp only [hact, Bool.not_true, Bool.false_eq_true, and_false, if_false,
    if_true, List.append_assoc]

/-- C2: at a terminal command level — the tokenizer raised no error, the first
operand resolves to no subcommand, the implicit help command is not invoked,
and no default subcommand is configured, with an action handler bound — the
result is exactly the fixed chain: a requested help flag aborts first, then
the mandatory-option sweep, then the leftover-unknown-option check, then
positional binding whose own checks (missing required argument,
variadic-not-last) abort, and only a fully passing chain invokes the action;
consequently resolution either invokes the action or aborts with the single
error of the first failing check. -/
theorem C2_terminal_fixed_order (c : Cmd) (ancestors : List Frame)
    (store : Store) (operands0 unknown0 : List String)
    (hact : c.hasActionHandler = true)
    (hdef : c.defaultCommandName = none)
    (herr : (parseOptions c store unknown0).err = none)
    (hsub : _findCommand c.commands
        (operands0 ++ (parseOptions c store unknown0).st.operands).head? = none)
    (hhelp : ¬(lazyHasImplicitHelpCommand c = true ∧
        (operands0 ++ (parseOptions c store unknown0).st.operands).head? =
          some c.helpCommandName)) :
    (_parseCommand c ancestors store operands0 unknown0 =
      (if outputHelpIfRequested c (parseOptions c store unknown0).st.unknown then
        Outcome.abort Abort.helpDisplayed
      else
        match firstMissingMandatory
            ({ options := c.options,
               store := (parseOptions c store unknown0).st.store } :: ancestors) with
        | some o => Outcome.abort (Abort.missingMandatoryOptionValue o.flags)
        | none =>
          if 0 < (parseOptions c store unknown0).st.unknown.length ∧
              !c.allowUnknownOpt then
            Outcome.abort
              (Abort.unknownOption
                ((parseOptions c store unknown0).st.unknown.headD ""))
          else
            match bindArgs c.argDefs.length 0 c.argDefs
                (operands0 ++ (parseOptions c store unknown0).st.operands ++
                  (parseOptions c store unknown0).st.unknown) with
            | Except.error e => Outcome.abort e
            | Except.ok slots => Outcome.actionInvoked slots)) ∧
    ((∃ slots, _parseCommand c ancestors store operands0 unknown0 =
        Outcome.actionInvoked slots) ∨
      (∃ a, _parseCommand c ancestors store operands0 unknown0 =
        Outcome.abort a)) := by
  have h := parseCommand_terminal_eq c ancestors store operands0 unknown0
    hact hdef herr hsub hhelp
  refine ⟨h, ?_⟩
  rw [h]
  repeat' split
  all_goals first
    | exact Or.inr ⟨_, rfl⟩
    | exact Or.inl ⟨_, rfl⟩

unseal scanLoop in
/-- Witness for C2: a bare command with an action handler and empty input
either invokes its action or aborts. -/
theorem C2_witness :
    (∃ slots, _parseCommand { emptyCmd with hasActionHandler := true } []
        initStore [] [] = Outcome.actionInvoked slots) ∨
    (∃ a, _parseCommand { emptyCmd with hasActionHandler := true } []
        initStore [] [] = Outcome.abort a) :=
  (C2_terminal_fixed_order { emptyCmd with hasActionHandler := true } []
    initStore [] [] rfl rfl (by decide) (by decide) (by decide)).2

/-- The ancestor walk finds a missing mandatory option whenever any frame of
the chain holds one. -/
theorem firstMissingMandatory_isSome (frames : List Frame)
    (h : ∃ f ∈ frames, ∃ o ∈ f.options,
        o.mandatory = true ∧ f.store o.attributeName = JsVal.undef) :
    ∃ o, firstMissingMandatory frames = some o := by
  induction frames with
  | nil =>
    obtain ⟨f, hf, _⟩ := h
    exact absurd hf (List.not_mem_nil f)
  | cons f rest ih =>
    cases hfind : f.options.find?
        (fun o => o.mandatory && (f.store o.attributeName == JsVal.undef)) with
    | some o =>
      refine ⟨o, ?_⟩
      simp only [firstMissingMandatory, hfind]
    | none =>
      obtain ⟨g, hg, o, ho, hm, hu⟩ := h
      rcases List.mem_cons.mp hg with rfl | hgr
      · have hno := List.find?_eq_none.mp hfind o ho
        simp [hm, hu] at hno
      · obtain ⟨o2, ho2⟩ := ih ⟨g, hgr, o, ho, hm, hu⟩
        refine ⟨o2, ?_⟩
        simp only [firstMissingMandatory, hfind, ho2]

/-- C3: at a terminal command level with no help flag requested, the mandatory
sweep walks the frame chain from the node itself through every ancestor: if
any frame of the chain — the terminal node included, but possibly only an
ancestor while the terminal node declares no mandatory option — holds an
option flagged mandatory whose stored value is undefined, resolution aborts
with `missingMandatoryOptionValue` carrying the flags of the first such
option found in the walk. -/
theorem C3_mandatory_sweep_ancestors (c : Cmd) (ancestors : List Frame)
    (store : Store) (operands0 unknown0 : List String)
    (hact : c.hasActionHandler = true)
    (hdef : c.defaultCommandName = none)
    (herr : (parseOptions c store unknown0).err = none)
    (hsub : _findCommand c.commands
        (operands0 ++ (parseOptions c store unknown0).st.operands).head? = none)
    (hhelp : ¬(lazyHasImplicitHelpCommand c = true ∧
        (operands0 ++ (parseOptions c store unknown0).st.operands).head? =
          some c.helpCommandName))
    (hnohelp : outputHelpIfRequested c (parseOptions c store unknown0).st.unknown
        = false)
    (hmiss : ∃ f ∈ ({ options := c.options,
                      store := (parseOptions c store unknown0).st.store }
          :: ancestors),
        ∃ o ∈ f.options,
          o.mandatory = true ∧ f.store o.attributeName = JsVal.undef) :
    ∃ o, firstMissingMandatory
        ({ options := c.options,
           store := (parseOptions c store unknown0).st.store } :: ancestors) =
          some o ∧
      _parseCommand c ancestors store operands0 unknown0 =
        Outcome.abort (Abort.missingMandatoryOptionValue o.flags) := by
  obtain ⟨o, ho⟩ := firstMissingMandatory_isSome _ hmiss
  refine ⟨o, ho, ?_⟩
  rw [parseCommand_terminal_eq c ancestors store operands0 unknown0
    hact hdef herr hsub hhelp]
  rw [if_neg (by simp [hnohelp]), ho]

unseal scanLoop in
/-- Witness for C3: a terminal command with no mandatory option of its own,
whose single ancestor registered the mandatory `--debug <level>` and never
bound it, aborts with `missingMandatoryOptionValue`. -/
theorem C3_witness :
    ∃ o, firstMissingMandatory
        ({ options := Cmd.options { emptyCmd with hasActionHandler := true },
           store := (parseOptions { emptyCmd with hasActionHandler := true }
              initStore []).st.store } ::
          [{ options :=
               (Cmd.requiredOption emptyCmd initStore "--debug <level>" "level"
                 none JsVal.undef).cmd.options,
             store :=
               (Cmd.requiredOption emptyCmd initStore "--debug <level>" "level"
                 none JsVal.undef).store }]) = some o ∧
      _parseCommand { emptyCmd with hasActionHandler := true }
          [{ options :=
               (Cmd.requiredOption emptyCmd initStore "--debug <level>" "level"
                 none JsVal.undef).cmd.options,
             store :=
               (Cmd.requiredOption emptyCmd initStore "--debug <level>" "level"
                 none JsVal.undef).store }]
          initStore [] [] =
        Outcome.abort (Abort.missingMandatoryOptionValue o.flags) :=
  C3_mandatory_sweep_ancestors { emptyCmd with hasActionHandler := true }
    [{ options :=
         (Cmd.requiredOption emptyCmd initStore "--debug <level>" "level"
           none JsVal.undef).cmd.options,
       store :=
         (Cmd.requiredOption emptyCmd initStore "--debug <level>" "level"
           none JsVal.undef).store }]
    initStore [] [] rfl rfl (by decide) (by decide) (by decide) (by decide)
    ⟨{ options :=
         (Cmd.requiredOption emptyCmd initStore "--debug <level>" "level"
           none JsVal.undef).cmd.options,
       store :=
         (Cmd.requiredOption emptyCmd initStore "--debug <level>" "level"
           none JsVal.undef).store },
     by simp,
     (Cmd.requiredOption emptyCmd initStore "--debug <level>" "level"
       none JsVal.undef).opt,
     by decide, by decide, by decide⟩
